import Mathlib

/-!
Verification of the event-stream persistence and metrics core.

This file shallowly embeds the Go source of the repository
(domain model, PostgreSQL and ClickHouse adapters, metrics query
builders, and the ClickHouse migration runner) as executable Lean
definitions, and proves the frozen claims about them.

Modelling conventions:
* Go float64 values are only ever copied by the code under
  verification, never computed with, so they are embedded as an
  opaque scalar type with decidable equality (here Int).
* Go time.Time is embedded as a wrapper around the count of seconds
  since January 1 of year 1 (the representation Go itself uses);
  IsZero holds exactly when that count is zero.
* Stateful database interaction is embedded as explicit state
  passing: stores are lists of rows, engines answering queries are
  oracle functions, and statement success or failure is decided by a
  Boolean oracle supplied as a parameter.
* fmt.Errorf wrapping is modelled by string concatenation; the %w
  verb of the wrapped error is rendered as the inner message text.
-/

/-- Go float64, treated as an opaque copied scalar (see header). -/
abbrev Float64 := Int

/-- Go time.Time: seconds since January 1, year 1 UTC.  Sub-second
precision is irrelevant to every claim and is not modelled. -/
structure GoTime where
  sec : Int
  deriving DecidableEq, Repr

/-- Go (time.Time).IsZero: the zero time value, January 1, year 1. -/
def GoTime.isZero (t : GoTime) : Bool :=
  t.sec == 0

/-- Go zero value of time.Time. -/
def GoTime.zero : GoTime := ⟨0⟩

/-- internal/domain/event.go: ChannelType is a string type. -/
abbrev ChannelType := String

/-- internal/domain/event.go: Param. -/
structure Param where
  key : String
  stringValue : String
  numberValue : Float64
  booleanValue : Bool
  deriving DecidableEq, Repr

/-- internal/domain/event.go: Device. -/
structure Device where
  category : String
  mobileBrandName : String
  mobileModelName : String
  operatingSystem : String
  operatingSystemVersion : String
  language : String
  browserName : String
  browserVersion : String
  hostname : String
  deriving DecidableEq, Repr

/-- internal/domain/event.go: AppInfo. -/
structure AppInfo where
  id : String
  version : String
  deriving DecidableEq, Repr

/-- internal/domain/event.go: Item. -/
structure Item where
  id : String
  name : String
  brand : String
  variant : String
  priceInUsd : Float64
  quantity : Int
  revenueInUsd : Float64
  locationId : String
  listId : String
  listName : String
  promotionId : String
  promotionName : String
  params : List Param
  deriving DecidableEq, Repr

/-- internal/domain/event.go: Event.  Timestamp fields are uint16 in
the source and are only copied, so Nat embeds them. -/
structure Event where
  id : String
  timestamp : Nat
  previousTimestamp : Nat
  date : GoTime
  name : String
  channelType : ChannelType
  eventParams : List Param
  userID : String
  userPseudoID : String
  userParams : List Param
  device : Device
  appInfo : AppInfo
  items : List Item
  deriving DecidableEq, Repr

/-- internal/domain/event (metrics file): MetricsQuery.  The Go
fields From and To are named fromDate and toDate here because from is
a reserved word in Lean.  Aggregation is a string type in the source
(AggregationType), with values channel, daily, hourly. -/
structure MetricsQuery where
  eventName : String
  fromDate : GoTime
  toDate : GoTime
  aggregation : String
  deriving DecidableEq, Repr

/-- internal/domain/event (metrics file): GroupedMetric. -/
structure GroupedMetric where
  groupKey : String
  totalCount : Int
  uniqueUserCount : Int
  deriving DecidableEq, Repr

/-- internal/domain/event (metrics file): MetricsResult. -/
structure MetricsResult where
  eventName : String
  fromDate : GoTime
  toDate : GoTime
  totalCount : Int
  uniqueUserCount : Int
  groupedMetrics : List GroupedMetric
  deriving DecidableEq, Repr

/-- A SQL argument as passed by the adapters: either the event name
string or a time bound. -/
inductive SqlArg where
  | str (v : String)
  | time (v : GoTime)
  deriving DecidableEq, Repr

/-- A row of the grouped metrics query as scanned by the adapters
(groupedMetricsRow in both metrics readers). -/
structure GroupedRow where
  groupKey : String
  totalCount : Int
  uniqueUserCount : Int
  deriving DecidableEq, Repr

/-- The backing engine, as seen through the query helpers: an oracle
answering the totals query (Get) and the grouped query (Select).
Claims C3, C4 and C10 concern only which SQL text and arguments the
adapter issues and how it repackages the returned rows, so the oracle
is total. -/
structure MetricsOracle where
  totals : String → List SqlArg → Int × Int
  grouped : String → List SqlArg → List GroupedRow

/-! ### Go standard library string helpers

The migration runner and the query builders use strings.TrimSpace,
strings.Split, strings.HasPrefix, strings.HasSuffix, strings.Contains
and strings.TrimSuffix.  They are reproduced here over the character
list underlying a Lean string, keeping every recursion structural so
that concrete inputs evaluate inside the kernel. -/

/-- The whitespace characters trimmed by strings.TrimSpace on the
ASCII inputs appearing in this code base. -/
def isGoSpace (c : Char) : Bool :=
  c == ' ' || c == '\t' || c == '\n' || c == '\x0d' || c == '\x0b' || c == '\x0c'

/-- strings.TrimSpace on the underlying character list. -/
def trimCharList (l : List Char) : List Char :=
  ((l.dropWhile isGoSpace).reverse.dropWhile isGoSpace).reverse

/-- strings.TrimSpace. -/
def goTrim (s : String) : String :=
  ⟨trimCharList s.data⟩

/-- strings.Split with a single-character separator: splits on every
occurrence, keeping empty fields, never returning an empty list. -/
def splitCharList (sep : Char) : List Char → List (List Char)
  | [] => [[]]
  | c :: cs =>
    let r := splitCharList sep cs
    if c == sep then [] :: r
    else
      match r with
      | [] => [[c]]
      | h :: t => (c :: h) :: t

/-- strings.Split(s, newline). -/
def goSplitLines (s : String) : List String :=
  (splitCharList '\n' s.data).map String.mk

/-- strings.HasPrefix(s, pre). -/
def goHasPrefix (s pre : String) : Bool :=
  pre.data.isPrefixOf s.data

/-- strings.HasSuffix(s, suf). -/
def goHasSuffix (s suf : String) : Bool :=
  suf.data.isSuffixOf s.data

/-- Whether sub occurs as a contiguous infix of l. -/
def containsCharList (sub : List Char) : List Char → Bool
  | [] => sub.isEmpty
  | c :: cs => sub.isPrefixOf (c :: cs) || containsCharList sub cs

/-- strings.Contains(s, sub). -/
def goContains (s sub : String) : Bool :=
  containsCharList sub.data s.data

/-- strings.TrimSuffix(s, suf): drops one trailing copy of suf when
present, otherwise returns s unchanged. -/
def goTrimSuffix (s suf : String) : String :=
  if goHasSuffix s suf then ⟨s.data.take (s.data.length - suf.data.length)⟩ else s

/-! ### Metrics query builders (both adapters)

The PostgreSQL reader lives in the postgres metrics reader source
file, the ClickHouse reader in
internal/adapter/outbound/persistence/clickhouse/metrics_reader.go.
Both build a WHERE clause incrementally and then run one totals query
plus, when Aggregation is non-empty and recognised, one grouped
query.  Query text is reproduced with the newline and tab layout of
the Go raw string literals. -/

/-- The incrementally built WHERE clause and argument list of the
PostgreSQL GetMetrics: the event-name predicate is always present as
placeholder number 1; a lower and an upper date bound are appended
only when the corresponding time is not the Go zero time, numbering
their placeholders with a running argIndex that starts at 2. -/
def pgBuildWhere (q : MetricsQuery) : String × List SqlArg :=
  let whereClause := "WHERE name = $1"
  let args : List SqlArg := [SqlArg.str q.eventName]
  let argIndex : Nat := 2
  let step1 :=
    if !q.fromDate.isZero then
      (whereClause ++ " AND date >= $" ++ toString argIndex,
       args ++ [SqlArg.time q.fromDate], argIndex + 1)
    else (whereClause, args, argIndex)
  let step2 :=
    if !q.toDate.isZero then
      (step1.1 ++ " AND date <= $" ++ toString step1.2.2,
       step1.2.1 ++ [SqlArg.time q.toDate])
    else (step1.1, step1.2.1)
  step2

/-- The WHERE clause and argument list of the ClickHouse GetMetrics:
same shape, but every placeholder is the positional question mark. -/
def chBuildWhere (q : MetricsQuery) : String × List SqlArg :=
  let whereClause := "WHERE name = ?"
  let args : List SqlArg := [SqlArg.str q.eventName]
  let step1 :=
    if !q.fromDate.isZero then
      (whereClause ++ " AND date >= ?", args ++ [SqlArg.time q.fromDate])
    else (whereClause, args)
  let step2 :=
    if !q.toDate.isZero then
      (step1.1 ++ " AND date <= ?", step1.2 ++ [SqlArg.time q.toDate])
    else step1
  step2

/-- PostgreSQL totals query text. -/
def pgTotalsQuery (whereClause : String) : String :=
  "\n\t\tSELECT \n\t\t\tCOUNT(*) AS total_count,\n\t\t\tCOUNT(DISTINCT user_id) AS unique_user_count\n\t\tFROM events\n\t\t" ++ whereClause ++ "\n\t"

/-- ClickHouse totals query text. -/
def chTotalsQuery (whereClause : String) : String :=
  "\n\t\tSELECT \n\t\t\tcount() AS total_count,\n\t\t\tuniqExact(user_id) AS unique_user_count\n\t\tFROM events\n\t\t" ++ whereClause ++ "\n\t"

/-- The switch on query.Aggregation in the PostgreSQL
getGroupedMetrics, returning the (groupByExpr, selectExpr) pair, or
none for the default branch. -/
def pgAggExprs (agg : String) : Option (String × String) :=
  if agg = "channel" then
    some ("channel_type", "channel_type AS group_key")
  else if agg = "daily" then
    some ("DATE(date)", "TO_CHAR(DATE(date), \x27YYYY-MM-DD\x27) AS group_key")
  else if agg = "hourly" then
    some ("DATE_TRUNC(\x27hour\x27, date)",
      "TO_CHAR(DATE_TRUNC(\x27hour\x27, date), \x27YYYY-MM-DD HH24:00:00\x27) AS group_key")
  else none

/-- The switch on query.Aggregation in the ClickHouse
getGroupedMetrics. -/
def chAggExprs (agg : String) : Option (String × String) :=
  if agg = "channel" then
    some ("channel_type", "channel_type AS group_key")
  else if agg = "daily" then
    some ("toDate(date)", "toString(toDate(date)) AS group_key")
  else if agg = "hourly" then
    some ("toStartOfHour(date)", "toString(toStartOfHour(date)) AS group_key")
  else none

/-- PostgreSQL grouped query text: the select expression, the WHERE
clause, then GROUP BY and ORDER BY on the same group expression (no
direction keyword, hence ascending). -/
def pgGroupedQuery (selectExpr whereClause groupByExpr : String) : String :=
  "\n\t\tSELECT \n\t\t\t" ++ selectExpr ++ ",\n\t\t\tCOUNT(*) AS total_count,\n\t\t\tCOUNT(DISTINCT user_id) AS unique_user_count\n\t\tFROM events\n\t\t" ++ whereClause ++ "\n\t\tGROUP BY " ++ groupByExpr ++ "\n\t\tORDER BY " ++ groupByExpr ++ "\n\t"

/-- ClickHouse grouped query text. -/
def chGroupedQuery (selectExpr whereClause groupByExpr : String) : String :=
  "\n\t\tSELECT \n\t\t\t" ++ selectExpr ++ ",\n\t\t\tcount() AS total_count,\n\t\t\tuniqExact(user_id) AS unique_user_count\n\t\tFROM events\n\t\t" ++ whereClause ++ "\n\t\tGROUP BY " ++ groupByExpr ++ "\n\t\tORDER BY " ++ groupByExpr ++ "\n\t"

/-- Shared shape of GetMetrics in both adapters, parameterised by the
where-clause builder, the query-text builders and the aggregation
switch.  Returns the MetricsResult together with the list of grouped
query texts issued to the engine (empty or a singleton), which makes
the claims about which queries run directly statable. -/
def getMetricsWith (buildWhere : MetricsQuery → String × List SqlArg)
    (totalsQ : String → String)
    (aggExprs : String → Option (String × String))
    (groupedQ : String → String → String → String)
    (db : MetricsOracle) (q : MetricsQuery) : MetricsResult × List String :=
  let wa := buildWhere q
  let whereClause := wa.1
  let args := wa.2
  let t := db.totals (totalsQ whereClause) args
  let base : MetricsResult :=
    { eventName := q.eventName, fromDate := q.fromDate, toDate := q.toDate,
      totalCount := t.1, uniqueUserCount := t.2, groupedMetrics := [] }
  if q.aggregation ≠ "" then
    match aggExprs q.aggregation with
    | some (groupByExpr, selectExpr) =>
      let gq := groupedQ selectExpr whereClause groupByExpr
      let rows := db.grouped gq args
      let gms : List GroupedMetric :=
        rows.map (fun r => ⟨r.groupKey, r.totalCount, r.uniqueUserCount⟩)
      ({ base with groupedMetrics := gms }, [gq])
    | none => (base, [])
  else (base, [])

/-- GetMetrics of the PostgreSQL metrics reader. -/
def pgGetMetrics : MetricsOracle → MetricsQuery → MetricsResult × List String :=
  getMetricsWith pgBuildWhere pgTotalsQuery pgAggExprs pgGroupedQuery

/-- GetMetrics of the ClickHouse metrics reader. -/
def chGetMetrics : MetricsOracle → MetricsQuery → MetricsResult × List String :=
  getMetricsWith chBuildWhere chTotalsQuery chAggExprs chGroupedQuery

/-! ### Row-store (PostgreSQL) event repository

From the postgres event repository source file.  Each nested value
object is serialised to one JSON text column.  json.Marshal cannot
fail on these plain struct types, so the conversion is total; the
serialised text itself is embedded as a structured JSON value (an
injective rendering), since no claim inspects the rendered bytes. -/

/-- A JSON document as produced by json.Marshal on the domain value
objects. -/
inductive Json where
  | str (v : String)
  | num (v : Float64)
  | intg (v : Int)
  | boolean (v : Bool)
  | arr (vs : List Json)
  | obj (fields : List (String × Json))

/-- json.Marshal of a Param. -/
def jsonOfParam (p : Param) : Json :=
  Json.obj [("Key", Json.str p.key), ("StringValue", Json.str p.stringValue),
    ("NumberValue", Json.num p.numberValue), ("BooleanValue", Json.boolean p.booleanValue)]

/-- json.Marshal of a Device. -/
def jsonOfDevice (d : Device) : Json :=
  Json.obj [("Category", Json.str d.category),
    ("MobileBrandName", Json.str d.mobileBrandName),
    ("MobileModelName", Json.str d.mobileModelName),
    ("OperatingSystem", Json.str d.operatingSystem),
    ("OperatingSystemVersion", Json.str d.operatingSystemVersion),
    ("Language", Json.str d.language), ("BrowserName", Json.str d.browserName),
    ("BrowserVersion", Json.str d.browserVersion), ("Hostname", Json.str d.hostname)]

/-- json.Marshal of an AppInfo. -/
def jsonOfAppInfo (a : AppInfo) : Json :=
  Json.obj [("ID", Json.str a.id), ("Version", Json.str a.version)]

/-- json.Marshal of an Item. -/
def jsonOfItem (it : Item) : Json :=
  Json.obj [("ID", Json.str it.id), ("Name", Json.str it.name),
    ("Brand", Json.str it.brand), ("Variant", Json.str it.variant),
    ("PriceInUsd", Json.num it.priceInUsd), ("Quantity", Json.intg it.quantity),
    ("RevenueInUsd", Json.num it.revenueInUsd),
    ("LocationId", Json.str it.locationId), ("ListId", Json.str it.listId),
    ("ListName", Json.str it.listName), ("PromotionId", Json.str it.promotionId),
    ("PromotionName", Json.str it.promotionName),
    ("Params", Json.arr (it.params.map jsonOfParam))]

/-- eventModel of the postgres repository.  The source declares the
date column as a string and the timestamps as int64 while the domain
carries time.Time and uint16; the conversion only copies the values,
which no claim inspects, so they are carried through unchanged. -/
structure PgEventModel where
  id : String
  name : String
  channelType : String
  timestamp : Nat
  previousTimestamp : Nat
  date : GoTime
  eventParams : Json
  userID : String
  userPseudoID : String
  userParams : Json
  device : Json
  appInfo : Json
  items : Json

/-- toModel of the postgres repository. -/
def toModelPg (e : Event) : PgEventModel :=
  { id := e.id, name := e.name, channelType := e.channelType,
    timestamp := e.timestamp, previousTimestamp := e.previousTimestamp,
    date := e.date,
    eventParams := Json.arr (e.eventParams.map jsonOfParam),
    userID := e.userID, userPseudoID := e.userPseudoID,
    userParams := Json.arr (e.userParams.map jsonOfParam),
    device := jsonOfDevice e.device, appInfo := jsonOfAppInfo e.appInfo,
    items := Json.arr (e.items.map jsonOfItem) }

/-- One observable action against a store whose rows have type rho:
beginning a transaction, executing a side statement, inserting a row,
committing, rolling back. -/
inductive DbOp (rho : Type) where
  | beginTx
  | exec (stmt : String)
  | insert (row : rho)
  | commit
  | rollback
  deriving DecidableEq, Repr

/-- The PostgreSQL store: the configured schema name and the rows of
the events table. -/
structure PgStore where
  schema : String
  rows : List PgEventModel

/-- The loop body of SaveBatch inside Transaction: one named insert
per event against the transaction state, stopping at the first
failing insert (failure decided by the oracle).  Returns the error,
the transaction rows and the trace of attempted inserts. -/
def pgInsertLoop (fails : PgEventModel → Bool) :
    List Event → List PgEventModel →
    Option String × List PgEventModel × List (DbOp PgEventModel)
  | [], rows => (none, rows, [])
  | e :: rest, rows =>
    let m := toModelPg e
    if fails m then
      (some "failed to insert event in batch", rows, [DbOp.insert m])
    else
      let r := pgInsertLoop fails rest (rows ++ [m])
      (r.1, r.2.1, DbOp.insert m :: r.2.2)

/-- The search-path statement pkg/postgresql Transaction runs inside
the transaction when a schema is configured. -/
def pgSearchPathOps (st : PgStore) : List (DbOp PgEventModel) :=
  if st.schema ≠ "" then [DbOp.exec ("SET search_path TO " ++ st.schema)] else []

/-- SaveBatch of the postgres repository: an empty batch returns nil
before any store interaction; otherwise the inserts run inside one
Transaction (pkg/postgresql Transaction: begin, optionally set the
search path, run the body, roll back on error, commit on success). -/
def pgSaveBatch (fails : PgEventModel → Bool) (st : PgStore) (events : List Event) :
    Option String × PgStore × List (DbOp PgEventModel) :=
  if events.length = 0 then (none, st, [])
  else
    let pre : List (DbOp PgEventModel) := pgSearchPathOps st
    let r := pgInsertLoop fails events st.rows
    match r.1 with
    | some msg => (some msg, st, DbOp.beginTx :: pre ++ r.2.2 ++ [DbOp.rollback])
    | none =>
      (none, { st with rows := r.2.1 }, DbOp.beginTx :: pre ++ r.2.2 ++ [DbOp.commit])

/-! ### Column-store (ClickHouse) event repository

From internal/adapter/outbound/persistence/clickhouse/metrics_reader.go
(second file in that path): repeated sub-entities become same-length
parallel arrays, Device and AppInfo become scalar columns. -/

/-- Conversion int32(n) of a Go int: two-complement wrap-around into
the int32 range. -/
def int32ofInt (n : Int) : Int :=
  (n + 2 ^ 31) % 2 ^ 32 - 2 ^ 31

/-- The rendering (time.Time).Format with layout 2006-01-02 15:04:05.
The civil-calendar text is irrelevant to every claim; the embedding
uses an injective placeholder rendering of the instant. -/
def goFormatDateTime (t : GoTime) : String :=
  toString t.sec

/-- eventModel of the ClickHouse repository: parallel arrays per
repeated sub-entity, flattened device and app-info scalars.  The
boolean-value arrays are arrays of uint8 in the source, embedded as
Nat. -/
structure ChEventModel where
  id : String
  name : String
  channelType : String
  timestamp : Nat
  previousTimestamp : Nat
  date : String
  userID : String
  userPseudoID : String
  eventParamKeys : List String
  eventParamStringValues : List String
  eventParamNumberValues : List Float64
  eventParamBooleanValues : List Nat
  userParamKeys : List String
  userParamStringValues : List String
  userParamNumberValues : List Float64
  userParamBooleanValues : List Nat
  deviceCategory : String
  deviceMobileBrandName : String
  deviceMobileModelName : String
  deviceOperatingSystem : String
  deviceOperatingSystemVersion : String
  deviceLanguage : String
  deviceBrowserName : String
  deviceBrowserVersion : String
  deviceHostname : String
  appInfoID : String
  appInfoVersion : String
  itemIDs : List String
  itemNames : List String
  itemBrands : List String
  itemVariants : List String
  itemPricesInUsd : List Float64
  itemQuantities : List Int
  itemRevenuesInUsd : List Float64
  deriving DecidableEq, Repr

/-- The boolean encoding of the ClickHouse toModel: the uint8 arrays
are zero-initialised and set to 1 exactly for true values. -/
def boolToUint8 (b : Bool) : Nat :=
  if b then 1 else 0

/-- toModel of the ClickHouse repository.  The Go code allocates each
array at the length of the source list and fills position i from
element i; that per-index fill is exactly List.map. -/
def toModelCh (e : Event) : ChEventModel :=
  { id := e.id, name := e.name, channelType := e.channelType,
    timestamp := e.timestamp, previousTimestamp := e.previousTimestamp,
    date := goFormatDateTime e.date,
    userID := e.userID, userPseudoID := e.userPseudoID,
    eventParamKeys := e.eventParams.map (fun p => p.key),
    eventParamStringValues := e.eventParams.map (fun p => p.stringValue),
    eventParamNumberValues := e.eventParams.map (fun p => p.numberValue),
    eventParamBooleanValues := e.eventParams.map (fun p => boolToUint8 p.booleanValue),
    userParamKeys := e.userParams.map (fun p => p.key),
    userParamStringValues := e.userParams.map (fun p => p.stringValue),
    userParamNumberValues := e.userParams.map (fun p => p.numberValue),
    userParamBooleanValues := e.userParams.map (fun p => boolToUint8 p.booleanValue),
    deviceCategory := e.device.category,
    deviceMobileBrandName := e.device.mobileBrandName,
    deviceMobileModelName := e.device.mobileModelName,
    deviceOperatingSystem := e.device.operatingSystem,
    deviceOperatingSystemVersion := e.device.operatingSystemVersion,
    deviceLanguage := e.device.language,
    deviceBrowserName := e.device.browserName,
    deviceBrowserVersion := e.device.browserVersion,
    deviceHostname := e.device.hostname,
    appInfoID := e.appInfo.id, appInfoVersion := e.appInfo.version,
    itemIDs := e.items.map (fun it => it.id),
    itemNames := e.items.map (fun it => it.name),
    itemBrands := e.items.map (fun it => it.brand),
    itemVariants := e.items.map (fun it => it.variant),
    itemPricesInUsd := e.items.map (fun it => it.priceInUsd),
    itemQuantities := e.items.map (fun it => int32ofInt it.quantity),
    itemRevenuesInUsd := e.items.map (fun it => it.revenueInUsd) }

/-- The ClickHouse events store. -/
structure ChEventStore where
  rows : List ChEventModel
  deriving DecidableEq, Repr

/-- The insert loop of pkg/clickhouse BatchInsert inside its wrapping
transaction. -/
def chInsertLoop (fails : ChEventModel → Bool) :
    List ChEventModel → List ChEventModel →
    Option String × List ChEventModel × List (DbOp ChEventModel)
  | [], rows => (none, rows, [])
  | m :: rest, rows =>
    if fails m then
      (some "batch insert failed", rows, [DbOp.insert m])
    else
      let r := chInsertLoop fails rest (rows ++ [m])
      (r.1, r.2.1, DbOp.insert m :: r.2.2)

/-- pkg/clickhouse BatchInsert: returns nil immediately on an empty
item list; otherwise begins a transaction, inserts each item, rolls
back at the first failure and commits on success. -/
def chBatchInsert (fails : ChEventModel → Bool) (st : ChEventStore)
    (models : List ChEventModel) :
    Option String × ChEventStore × List (DbOp ChEventModel) :=
  if models.length = 0 then (none, st, [])
  else
    let r := chInsertLoop fails models st.rows
    match r.1 with
    | some msg => (some msg, st, DbOp.beginTx :: r.2.2 ++ [DbOp.rollback])
    | none => (none, ⟨r.2.1⟩, DbOp.beginTx :: r.2.2 ++ [DbOp.commit])

/-- SaveBatch of the ClickHouse repository: an empty batch returns
nil before building models or touching the store; otherwise all
events are converted and handed to BatchInsert, errors being wrapped
with a failed-to-batch-insert prefix. -/
def chSaveBatch (fails : ChEventModel → Bool) (st : ChEventStore) (events : List Event) :
    Option String × ChEventStore × List (DbOp ChEventModel) :=
  if events.length = 0 then (none, st, [])
  else
    let r := chBatchInsert fails st (events.map toModelCh)
    match r.1 with
    | some msg => (some ("failed to batch insert events: " ++ msg), r.2.1, r.2.2)
    | none => (none, r.2.1, r.2.2)

/-! ### Migration runner (pkg/clickhouse migrator)

The migrator discovers versioned up/down SQL pairs (discovery over
the embedded filesystem is outside the claims; the migrations list
below is the discovered, version-ascending-sorted list), keeps a
ledger table named schema_migrations in the analytical store, and
applies or rolls back migrations.  The engine is embedded as an
explicit state: whether the ledger table exists, the ledger rows in
insertion order, and the trace of migration statements successfully
executed against the store (schemaOps).  Meta statements (creating
the ledger table, reading it, inserting or deleting its rows) are
modelled as always available; migration statement success is decided
by the execOk oracle. -/

/-- Migration record built by loadMigrations. -/
structure Migration where
  version : String
  name : String
  upSQL : String
  downSQL : String
  filename : String
  deriving DecidableEq, Repr

/-- One row of the schema_migrations ledger (applied_at is never read
by the runner and is not modelled). -/
structure LedgerRow where
  version : String
  name : String
  deriving DecidableEq, Repr

/-- The analytical store as the migrator sees it. -/
structure ChDbState where
  tableExists : Bool
  ledger : List LedgerRow
  schemaOps : List String
  deriving DecidableEq, Repr

/-- ensureMigrationTable: CREATE TABLE IF NOT EXISTS
schema_migrations.  When the table is absent this creates it empty;
when present it changes nothing. -/
def ensureMigrationTable (s : ChDbState) : ChDbState :=
  if s.tableExists then s
  else { tableExists := true, ledger := [], schemaOps := s.schemaOps }

/-- getAppliedMigrations: SELECT version FROM schema_migrations,
collected into the applied set (here the list of versions; the runner
only tests membership). -/
def appliedVersions (s : ChDbState) : List String :=
  s.ledger.map (fun r => r.version)

/-- recordMigration: INSERT INTO schema_migrations (version, name). -/
def recordMigration (s : ChDbState) (m : Migration) : ChDbState :=
  { s with ledger := s.ledger ++ [⟨m.version, m.name⟩] }

/-- removeMigrationRecord: ALTER TABLE schema_migrations DELETE WHERE
version = v, which deletes every row carrying that version. -/
def removeMigrationRecord (s : ChDbState) (v : String) : ChDbState :=
  { s with ledger := s.ledger.filter (fun r => r.version ≠ v) }

/-- splitStatements, the line loop: carries the remaining lines, the
multi-line-comment flag and the builder content, in the order of the
Go loop body: skip blank and single-dash-comment lines, toggle the
comment flag on the comment delimiters, skip lines inside a comment,
otherwise append the raw line plus a newline to the builder and emit
a statement whenever the trimmed line ends in a semicolon (trimming
the built text and dropping the trailing semicolon, emitting only
when nonempty).  A trailing semicolon-less statement is emitted at
the end. -/
def splitStmtsGo : List String → Bool → List Char → List String
  | [], _, current =>
    if (trimCharList current).isEmpty then [] else [⟨trimCharList current⟩]
  | line :: rest, inComment, current =>
    let trimmed := goTrim line
    if trimmed = "" || goHasPrefix trimmed "--" then
      splitStmtsGo rest inComment current
    else
      let inComment1 := if goContains trimmed "/*" then true else inComment
      if goContains trimmed "*/" then
        splitStmtsGo rest false current
      else if inComment1 then
        splitStmtsGo rest inComment1 current
      else
        let current1 := current ++ line.data ++ ['\n']
        if goHasSuffix trimmed ";" then
          let stmt := goTrimSuffix (goTrim ⟨current1⟩) ";"
          if stmt = "" then splitStmtsGo rest inComment1 []
          else stmt :: splitStmtsGo rest inComment1 []
        else
          splitStmtsGo rest inComment1 current1

/-- splitStatements of the migrator. -/
def splitStatements (sql : String) : List String :=
  splitStmtsGo (goSplitLines sql) false []

/-- The per-statement execution loop shared by Up, Down and DownAll:
trim each statement, skip empty ones, execute the rest sequentially,
stopping at the first failure.  On failure the error carries the
failing (trimmed) statement; successfully executed statements are
appended to the schemaOps trace of the state. -/
def runStmts (execOk : String → Bool) : List String → ChDbState → Option String × ChDbState
  | [], s => (none, s)
  | stmt :: rest, s =>
    let t := goTrim stmt
    if t = "" then runStmts execOk rest s
    else if execOk t then
      runStmts execOk rest { s with schemaOps := s.schemaOps ++ [t] }
    else (some t, s)

/-- The migration loop of Up: skip a migration already in the applied
set or with an empty up-script; otherwise run its statements, abort
with a wrapped error at the first statement failure (without touching
the ledger), and insert the ledger row after full success.  The
applied set is computed once before the loop and never updated inside
it, exactly as in the source. -/
def upMigs (execOk : String → Bool) :
    List Migration → List String → ChDbState → Option String × ChDbState
  | [], _, s => (none, s)
  | m :: rest, applied, s =>
    if applied.contains m.version then upMigs execOk rest applied s
    else if m.upSQL = "" then upMigs execOk rest applied s
    else
      match runStmts execOk (splitStatements m.upSQL) s with
      | (some t, s1) =>
        (some ("failed to apply migration " ++ m.filename ++ ": Statement: " ++ t), s1)
      | (none, s1) => upMigs execOk rest applied (recordMigration s1 m)

/-- Migrator.Up. -/
def migratorUp (execOk : String → Bool) (migs : List Migration) (s : ChDbState) :
    Option String × ChDbState :=
  let s1 := ensureMigrationTable s
  upMigs execOk migs (appliedVersions s1) s1

/-- The scan of Down for the last applied migration: the loop walks
the discovered (version-ascending) list from its end and stops at the
first migration whose version is in the applied set. -/
def findLastApplied (migs : List Migration) (applied : List String) : Option Migration :=
  migs.reverse.find? (fun m => applied.contains m.version)

/-- Migrator.Down: no-op when nothing is applied; an error when the
located migration has an empty down-script; otherwise run its down
statements (failures abort with a wrapped error) and remove its
ledger record.  The trailing fixed pause of the source is real time
and has no state effect, so it is not modelled. -/
def migratorDown (execOk : String → Bool) (migs : List Migration) (s : ChDbState) :
    Option String × ChDbState :=
  let s1 := ensureMigrationTable s
  let applied := appliedVersions s1
  match findLastApplied migs applied with
  | none => (none, s1)
  | some m =>
    if m.downSQL = "" then
      (some ("migration " ++ m.filename ++ " has no down migration"), s1)
    else
      match runStmts execOk (splitStatements m.downSQL) s1 with
      | (some t, s2) =>
        (some ("failed to rollback migration " ++ m.filename ++ ": Statement: " ++ t), s2)
      | (none, s2) => (none, removeMigrationRecord s2 m.version)

/-- MigrationStatus row returned by Status. -/
structure MigrationStatus where
  version : String
  name : String
  applied : Bool
  deriving DecidableEq, Repr

/-- Migrator.Status: ensure the ledger table, read the applied set,
and report one row per discovered migration. -/
def migratorStatus (migs : List Migration) (s : ChDbState) :
    List MigrationStatus × ChDbState :=
  let s1 := ensureMigrationTable s
  let applied := appliedVersions s1
  (migs.map (fun m => ⟨m.version, m.name, applied.contains m.version⟩), s1)

/-! ### Further definitions used by the claim statements and their
witnesses -/

/-- Number of placeholder markers (dollar signs) in a PostgreSQL
clause; every placeholder contributes exactly one dollar sign. -/
def countDollar (s : String) : Nat :=
  s.data.count '$'

/-- The statements a file actually executes, in order: each statement
trimmed, empty ones skipped. -/
def execStmtsOf (stmts : List String) : List String :=
  (stmts.map goTrim).filter (fun t => t != "")

/-- A concrete device for witness scenarios. -/
def sampleDevice : Device :=
  ⟨"mobile", "brand", "model", "os", "12", "en", "browser", "1", "host"⟩

/-- A concrete app info for witness scenarios. -/
def sampleAppInfo : AppInfo := ⟨"app", "1.0"⟩

/-- A concrete event for witness scenarios. -/
def sampleEvent : Event :=
  ⟨"id1", 1, 0, ⟨100⟩, "page_view", "web", [⟨"k", "v", 3, true⟩],
    "u1", "p1", [], sampleDevice, sampleAppInfo, []⟩

/-- A second concrete event for witness scenarios. -/
def sampleEvent2 : Event :=
  ⟨"id2", 2, 1, ⟨200⟩, "page_view", "mobile", [],
    "u2", "p2", [⟨"uk", "", 0, false⟩], sampleDevice, sampleAppInfo,
    [⟨"it1", "thing", "b", "v", 5, 2, 10, "loc", "l", "ln", "pr", "pn", []⟩]⟩

/-- A concrete metrics oracle for witness scenarios. -/
def sampleOracle : MetricsOracle :=
  ⟨fun _ _ => (2, 2), fun _ _ => [⟨"mobile", 1, 1⟩, ⟨"web", 1, 1⟩]⟩

/-- A concrete metrics query (both bounds present, channel grouping)
for witness scenarios. -/
def sampleQuery : MetricsQuery := ⟨"page_view", ⟨5⟩, ⟨7⟩, "channel"⟩

/-- A migration with both scripts present, for witness scenarios. -/
def sampleMigration : Migration :=
  ⟨"000001", "create_events_table", "CREATE TABLE events (id String);",
    "DROP TABLE events;", "000001_create_events_table"⟩

/-- A migration whose up-script fails on its second statement under
sampleExecOk, for witness scenarios. -/
def sampleBadMigration : Migration :=
  ⟨"000002", "bad", "CREATE TABLE t2 (x Int);\nBAD STATEMENT;", "", "000002_bad"⟩

/-- A statement oracle failing exactly on the bad statement of
sampleBadMigration. -/
def sampleExecOk (t : String) : Bool :=
  t != "BAD STATEMENT"

/-- A fresh analytical store: ledger table absent. -/
def freshChDb : ChDbState := ⟨false, [], []⟩

/-! ### Claim theorems -/

set_option maxRecDepth 8000
set_option maxHeartbeats 1000000

/-- C1: for every store state and failure oracle, SaveBatch applied
to the empty event list returns success (no error) in both the
row-store and the column-store adapter, with the store unchanged and
an empty operation trace, so no SQL statement is executed and no
transaction is begun. -/
theorem c1_saveBatch_empty_noop (pfails : PgEventModel → Bool) (pst : PgStore)
    (cfails : ChEventModel → Bool) (cst : ChEventStore) :
    pgSaveBatch pfails pst [] = (none, pst, []) ∧
    chSaveBatch cfails cst [] = (none, cst, []) :=
  ⟨rfl, rfl⟩

/-- C9: the column-store toModel produces same-length parallel arrays
per repeated sub-entity (four per param list, seven for items), whose
position i holds the corresponding field of source element i, with
booleans encoded as 1 for true and 0 for false.  The positional facts
are stated through the optional indexing operator, which also forces
the length equalities at every index. -/
theorem c9_toModel_parallel_arrays (e : Event) (i : Nat) :
    ((toModelCh e).eventParamKeys.length = e.eventParams.length ∧
      (toModelCh e).eventParamStringValues.length = e.eventParams.length ∧
      (toModelCh e).eventParamNumberValues.length = e.eventParams.length ∧
      (toModelCh e).eventParamBooleanValues.length = e.eventParams.length) ∧
    ((toModelCh e).userParamKeys.length = e.userParams.length ∧
      (toModelCh e).userParamStringValues.length = e.userParams.length ∧
      (toModelCh e).userParamNumberValues.length = e.userParams.length ∧
      (toModelCh e).userParamBooleanValues.length = e.userParams.length) ∧
    ((toModelCh e).itemIDs.length = e.items.length ∧
      (toModelCh e).itemNames.length = e.items.length ∧
      (toModelCh e).itemBrands.length = e.items.length ∧
      (toModelCh e).itemVariants.length = e.items.length ∧
      (toModelCh e).itemPricesInUsd.length = e.items.length ∧
      (toModelCh e).itemQuantities.length = e.items.length ∧
      (toModelCh e).itemRevenuesInUsd.length = e.items.length) ∧
    ((toModelCh e).eventParamKeys[i]? = (e.eventParams[i]?).map (fun p => p.key) ∧
      (toModelCh e).eventParamStringValues[i]? =
        (e.eventParams[i]?).map (fun p => p.stringValue) ∧
      (toModelCh e).eventParamNumberValues[i]? =
        (e.eventParams[i]?).map (fun p => p.numberValue) ∧
      (toModelCh e).eventParamBooleanValues[i]? =
        (e.eventParams[i]?).map (fun p => if p.booleanValue then 1 else 0)) ∧
    ((toModelCh e).userParamKeys[i]? = (e.userParams[i]?).map (fun p => p.key) ∧
      (toModelCh e).userParamStringValues[i]? =
        (e.userParams[i]?).map (fun p => p.stringValue) ∧
      (toModelCh e).userParamNumberValues[i]? =
        (e.userParams[i]?).map (fun p => p.numberValue) ∧
      (toModelCh e).userParamBooleanValues[i]? =
        (e.userParams[i]?).map (fun p => if p.booleanValue then 1 else 0)) ∧
    ((toModelCh e).itemIDs[i]? = (e.items[i]?).map (fun it => it.id) ∧
      (toModelCh e).itemNames[i]? = (e.items[i]?).map (fun it => it.name) ∧
      (toModelCh e).itemBrands[i]? = (e.items[i]?).map (fun it => it.brand) ∧
      (toModelCh e).itemVariants[i]? = (e.items[i]?).map (fun it => it.variant) ∧
      (toModelCh e).itemPricesInUsd[i]? = (e.items[i]?).map (fun it => it.priceInUsd) ∧
      (toModelCh e).itemQuantities[i]? =
        (e.items[i]?).map (fun it => int32ofInt it.quantity) ∧
      (toModelCh e).itemRevenuesInUsd[i]? =
        (e.items[i]?).map (fun it => it.revenueInUsd)) := by
  simp [toModelCh, List.getElem?_map, boolToUint8]

/-- C10: in both adapters the lower (respectively upper) date-bound
predicate appears in the WHERE clause exactly when From (respectively
To) differs from the Go zero time: a zero-valued bound is silently
omitted and the query is unbounded on that side. -/
theorem c10_zero_time_sentinel (q : MetricsQuery) :
    goContains (pgBuildWhere q).1 "date >= " = !q.fromDate.isZero ∧
    goContains (pgBuildWhere q).1 "date <= " = !q.toDate.isZero ∧
    goContains (chBuildWhere q).1 "date >= " = !q.fromDate.isZero ∧
    goContains (chBuildWhere q).1 "date <= " = !q.toDate.isZero := by
  cases hf : q.fromDate.isZero <;> cases ht : q.toDate.isZero <;>
    refine ⟨?_, ?_, ?_, ?_⟩ <;>
      · simp [pgBuildWhere, chBuildWhere, hf, ht]
        try decide

/-- C4: the PostgreSQL WHERE clause uses strictly ordinal
placeholders consistent with the append order in all four presence
combinations of the bounds (name always the first placeholder, a sole
present bound the second, both bounds the second and third), and the
number of placeholder markers equals the length of the argument
list. -/
theorem c4_pg_ordinal_placeholders (q : MetricsQuery) :
    (q.fromDate.isZero = true → q.toDate.isZero = true →
      pgBuildWhere q = ("WHERE name = $1", [SqlArg.str q.eventName])) ∧
    (q.fromDate.isZero = false → q.toDate.isZero = true →
      pgBuildWhere q = ("WHERE name = $1 AND date >= $2",
        [SqlArg.str q.eventName, SqlArg.time q.fromDate])) ∧
    (q.fromDate.isZero = true → q.toDate.isZero = false →
      pgBuildWhere q = ("WHERE name = $1 AND date <= $2",
        [SqlArg.str q.eventName, SqlArg.time q.toDate])) ∧
    (q.fromDate.isZero = false → q.toDate.isZero = false →
      pgBuildWhere q = ("WHERE name = $1 AND date >= $2 AND date <= $3",
        [SqlArg.str q.eventName, SqlArg.time q.fromDate, SqlArg.time q.toDate])) ∧
    countDollar (pgBuildWhere q).1 = (pgBuildWhere q).2.length := by
  refine ⟨fun h1 h2 => ?_, fun h1 h2 => ?_, fun h1 h2 => ?_, fun h1 h2 => ?_, ?_⟩
  · simp [pgBuildWhere, h1, h2]
  · simp [pgBuildWhere, h1, h2]
    try decide
  · simp [pgBuildWhere, h1, h2]
    try decide
  · simp [pgBuildWhere, h1, h2]
    try decide
  · cases hf : q.fromDate.isZero <;> cases ht : q.toDate.isZero <;>
      · simp [pgBuildWhere, countDollar, hf, ht]
        try decide

/-- C4 witness: the theorem applied at the both-bounds-present sample
query. -/
theorem c4_pg_ordinal_placeholders_witness :
    pgBuildWhere sampleQuery = ("WHERE name = $1 AND date >= $2 AND date <= $3",
      [SqlArg.str "page_view", SqlArg.time ⟨5⟩, SqlArg.time ⟨7⟩]) :=
  (c4_pg_ordinal_placeholders sampleQuery).2.2.2.1 (by decide) (by decide)

/-- Helper: the PostgreSQL grouped query text ends with GROUP BY and
ORDER BY on the group expression, with no direction keyword (hence
ascending order). -/
theorem pgGroupedQuery_suffix (sel w g : String) :
    ∃ p, pgGroupedQuery sel w g =
      p ++ "\n\t\tGROUP BY " ++ g ++ "\n\t\tORDER BY " ++ g ++ "\n\t" :=
  ⟨"\n\t\tSELECT \n\t\t\t" ++ sel ++ ",\n\t\t\tCOUNT(*) AS total_count,\n\t\t\tCOUNT(DISTINCT user_id) AS unique_user_count\n\t\tFROM events\n\t\t" ++ w, rfl⟩

/-- Helper: the ClickHouse grouped query text ends with GROUP BY and
ORDER BY on the group expression, with no direction keyword (hence
ascending order). -/
theorem chGroupedQuery_suffix (sel w g : String) :
    ∃ p, chGroupedQuery sel w g =
      p ++ "\n\t\tGROUP BY " ++ g ++ "\n\t\tORDER BY " ++ g ++ "\n\t" :=
  ⟨"\n\t\tSELECT \n\t\t\t" ++ sel ++ ",\n\t\t\tcount() AS total_count,\n\t\t\tuniqExact(user_id) AS unique_user_count\n\t\tFROM events\n\t\t" ++ w, rfl⟩

/-- C3: when Aggregation is absent both adapters issue no grouped
query and return empty GroupedMetrics; when the aggregation switch
recognises the value (exactly for channel, daily, hourly - final
conjuncts) each adapter issues exactly one grouped query, whose text
groups by and orders ascending by the matching group expression, and
returns the rows of that query in order as GroupedMetrics. -/
theorem c3_grouped_query_dispatch (db : MetricsOracle) (q : MetricsQuery) :
    (q.aggregation = "" →
      (pgGetMetrics db q).2 = [] ∧ (pgGetMetrics db q).1.groupedMetrics = [] ∧
      (chGetMetrics db q).2 = [] ∧ (chGetMetrics db q).1.groupedMetrics = []) ∧
    (∀ g sel, pgAggExprs q.aggregation = some (g, sel) →
      (pgGetMetrics db q).2 = [pgGroupedQuery sel (pgBuildWhere q).1 g] ∧
      (pgGetMetrics db q).1.groupedMetrics =
        (db.grouped (pgGroupedQuery sel (pgBuildWhere q).1 g) (pgBuildWhere q).2).map
          (fun r => ⟨r.groupKey, r.totalCount, r.uniqueUserCount⟩) ∧
      (∃ p, pgGroupedQuery sel (pgBuildWhere q).1 g =
        p ++ "\n\t\tGROUP BY " ++ g ++ "\n\t\tORDER BY " ++ g ++ "\n\t")) ∧
    (∀ g sel, chAggExprs q.aggregation = some (g, sel) →
      (chGetMetrics db q).2 = [chGroupedQuery sel (chBuildWhere q).1 g] ∧
      (chGetMetrics db q).1.groupedMetrics =
        (db.grouped (chGroupedQuery sel (chBuildWhere q).1 g) (chBuildWhere q).2).map
          (fun r => ⟨r.groupKey, r.totalCount, r.uniqueUserCount⟩) ∧
      (∃ p, chGroupedQuery sel (chBuildWhere q).1 g =
        p ++ "\n\t\tGROUP BY " ++ g ++ "\n\t\tORDER BY " ++ g ++ "\n\t")) ∧
    (∀ a, (pgAggExprs a).isSome = true ↔
      (a = "channel" ∨ a = "daily" ∨ a = "hourly")) ∧
    (∀ a, (chAggExprs a).isSome = true ↔
      (a = "channel" ∨ a = "daily" ∨ a = "hourly")) := by
  refine ⟨?_, ?_, ?_, ?_, ?_⟩
  · intro h
    refine ⟨?_, ?_, ?_, ?_⟩ <;> simp [pgGetMetrics, chGetMetrics, getMetricsWith, h]
  · intro g sel h
    have hne : q.aggregation ≠ "" := by
      intro he
      rw [he] at h
      simp [pgAggExprs] at h
    refine ⟨?_, ?_, pgGroupedQuery_suffix sel (pgBuildWhere q).1 g⟩ <;>
      simp [pgGetMetrics, getMetricsWith, hne, h]
  · intro g sel h
    have hne : q.aggregation ≠ "" := by
      intro he
      rw [he] at h
      simp [chAggExprs] at h
    refine ⟨?_, ?_, chGroupedQuery_suffix sel (chBuildWhere q).1 g⟩ <;>
      simp [chGetMetrics, getMetricsWith, hne, h]
  · intro a
    unfold pgAggExprs
    split_ifs <;> simp_all
  · intro a
    unfold chAggExprs
    split_ifs <;> simp_all

/-- C3 witness: the channel-aggregation branch of the theorem at the
sample oracle and query. -/
theorem c3_grouped_query_dispatch_witness :
    (pgGetMetrics sampleOracle sampleQuery).2 =
      [pgGroupedQuery "channel_type AS group_key" (pgBuildWhere sampleQuery).1
        "channel_type"] ∧
    (pgGetMetrics sampleOracle sampleQuery).1.groupedMetrics =
      (sampleOracle.grouped
        (pgGroupedQuery "channel_type AS group_key" (pgBuildWhere sampleQuery).1
          "channel_type") (pgBuildWhere sampleQuery).2).map
        (fun r => ⟨r.groupKey, r.totalCount, r.uniqueUserCount⟩) ∧
    (∃ p, pgGroupedQuery "channel_type AS group_key" (pgBuildWhere sampleQuery).1
        "channel_type" =
      p ++ "\n\t\tGROUP BY " ++ "channel_type" ++ "\n\t\tORDER BY " ++ "channel_type" ++ "\n\t") :=
  (c3_grouped_query_dispatch sampleOracle sampleQuery).2.1 "channel_type"
    "channel_type AS group_key" (by decide)

/-- Helper: when every insert succeeds, the SaveBatch loop appends
one row per event in order and traces one insert per event. -/
theorem pgInsertLoop_ok (fails : PgEventModel → Bool) (events : List Event) :
    ∀ rows, (∀ e ∈ events, fails (toModelPg e) = false) →
      pgInsertLoop fails events rows =
        (none, rows ++ events.map toModelPg,
          events.map (fun e => DbOp.insert (toModelPg e))) := by
  induction events with
  | nil => intro rows h; simp [pgInsertLoop]
  | cons e rest ih =>
    intro rows h
    have he : fails (toModelPg e) = false := h e (by simp)
    have hrest : ∀ x ∈ rest, fails (toModelPg x) = false :=
      fun x hx => h x (by simp [hx])
    simp [pgInsertLoop, he, ih (rows ++ [toModelPg e]) hrest]

/-- Helper: at the first failing insert the SaveBatch loop stops with
the batch error, having traced the successful prefix and the failing
attempt. -/
theorem pgInsertLoop_fail (fails : PgEventModel → Bool) (pre : List Event)
    (e : Event) (post : List Event) :
    ∀ rows, (∀ x ∈ pre, fails (toModelPg x) = false) →
      fails (toModelPg e) = true →
      pgInsertLoop fails (pre ++ e :: post) rows =
        (some "failed to insert event in batch", rows ++ pre.map toModelPg,
          pre.map (fun x => DbOp.insert (toModelPg x)) ++ [DbOp.insert (toModelPg e)]) := by
  induction pre with
  | nil => intro rows hpre hfail; simp [pgInsertLoop, hfail]
  | cons x xs ih =>
    intro rows hpre hfail
    have hx : fails (toModelPg x) = false := hpre x (by simp)
    have hxs : ∀ y ∈ xs, fails (toModelPg y) = false :=
      fun y hy => hpre y (by simp [hy])
    simp [pgInsertLoop, hx, ih (rows ++ [toModelPg x]) hxs hfail]

/-- C2: non-empty row-store SaveBatch is transactional and
all-or-nothing.  When every insert succeeds it returns success, the
store gains exactly the N converted rows in order, and the trace is
one begin, the per-event inserts, one commit.  When some insert fails
(first failure at event e after an all-successful prefix) it returns
the batch error, the store is exactly as before the call, and the
trace ends in a rollback after the attempted inserts. -/
theorem c2_pg_saveBatch_all_or_nothing (fails : PgEventModel → Bool) (st : PgStore)
    (events : List Event) (hne : events ≠ []) :
    ((∀ e ∈ events, fails (toModelPg e) = false) →
      pgSaveBatch fails st events =
        (none, { st with rows := st.rows ++ events.map toModelPg },
          DbOp.beginTx :: pgSearchPathOps st ++
            events.map (fun e => DbOp.insert (toModelPg e)) ++ [DbOp.commit])) ∧
    (∀ pre e post, events = pre ++ e :: post →
      (∀ x ∈ pre, fails (toModelPg x) = false) → fails (toModelPg e) = true →
      pgSaveBatch fails st events =
        (some "failed to insert event in batch", st,
          DbOp.beginTx :: pgSearchPathOps st ++
            (pre.map (fun x => DbOp.insert (toModelPg x)) ++ [DbOp.insert (toModelPg e)]) ++
            [DbOp.rollback])) := by
  have hlen : ¬ events.length = 0 := by simpa using hne
  constructor
  · intro hall
    simp [pgSaveBatch, hlen, pgInsertLoop_ok fails events st.rows hall]
  · intro pre e post hdec hpre hfail
    subst hdec
    simp [pgSaveBatch, hlen, pgInsertLoop_fail fails pre e post st.rows hpre hfail]

/-- C2 witness: the all-success branch at two concrete events over
the empty store, and the failure branch at an oracle failing on every
insert. -/
theorem c2_pg_saveBatch_all_or_nothing_witness :
    pgSaveBatch (fun _ => false) ⟨"", []⟩ [sampleEvent, sampleEvent2] =
      (none, ⟨"", [toModelPg sampleEvent, toModelPg sampleEvent2]⟩,
        [DbOp.beginTx, DbOp.insert (toModelPg sampleEvent),
          DbOp.insert (toModelPg sampleEvent2), DbOp.commit]) ∧
    pgSaveBatch (fun _ => true) ⟨"", [toModelPg sampleEvent]⟩ [sampleEvent2] =
      (some "failed to insert event in batch", ⟨"", [toModelPg sampleEvent]⟩,
        [DbOp.beginTx, DbOp.insert (toModelPg sampleEvent2), DbOp.rollback]) := by
  constructor
  · have h := (c2_pg_saveBatch_all_or_nothing (fun _ => false) ⟨"", []⟩
      [sampleEvent, sampleEvent2] (by simp)).1 (by simp)
    simpa [pgSearchPathOps] using h
  · have h := (c2_pg_saveBatch_all_or_nothing (fun _ => true) ⟨"", [toModelPg sampleEvent]⟩
      [sampleEvent2] (by simp)).2 [] sampleEvent2 [] rfl (by simp) rfl
    simpa [pgSearchPathOps] using h

/-- Helper: a statement run in which every (trimmed, nonempty)
statement succeeds returns no error and appends exactly the trimmed
nonempty statements to the executed trace. -/
theorem runStmts_ok (execOk : String → Bool) (stmts : List String) :
    ∀ s, (∀ t ∈ stmts, goTrim t ≠ "" → execOk (goTrim t) = true) →
      runStmts execOk stmts s =
        (none, { s with schemaOps := s.schemaOps ++ execStmtsOf stmts }) := by
  induction stmts with
  | nil => intro s h; simp [runStmts, execStmtsOf]
  | cons t rest ih =>
    intro s h
    have hrest : ∀ x ∈ rest, goTrim x ≠ "" → execOk (goTrim x) = true :=
      fun x hx => h x (by simp [hx])
    by_cases ht : goTrim t = ""
    · simp [runStmts, ht, ih s hrest, execStmtsOf]
    · have hx : execOk (goTrim t) = true := h t (by simp) ht
      simp [runStmts, ht, hx, ih _ hrest, execStmtsOf]

/-- Helper: a statement run that reaches a failing statement after an
all-successful prefix stops there: the error carries the trimmed
failing statement and only the prefix was executed. -/
theorem runStmts_fail (execOk : String → Bool) (a : List String) (bad : String)
    (b : List String) :
    ∀ s, (∀ t ∈ a, goTrim t ≠ "" → execOk (goTrim t) = true) →
      goTrim bad ≠ "" → execOk (goTrim bad) = false →
      runStmts execOk (a ++ bad :: b) s =
        (some (goTrim bad), { s with schemaOps := s.schemaOps ++ execStmtsOf a }) := by
  induction a with
  | nil =>
    intro s h hb1 hb2
    simp [runStmts, hb1, hb2, execStmtsOf]
  | cons t rest ih =>
    intro s h hb1 hb2
    have hrest : ∀ x ∈ rest, goTrim x ≠ "" → execOk (goTrim x) = true :=
      fun x hx => h x (by simp [hx])
    by_cases ht : goTrim t = ""
    · simp [runStmts, ht, ih s hrest hb1 hb2, execStmtsOf]
    · have hx : execOk (goTrim t) = true := h t (by simp) ht
      simp [runStmts, ht, hx, ih _ hrest hb1 hb2, execStmtsOf]

/-- Helper: a statement run never touches the ledger or the table
flag. -/
theorem runStmts_frame (execOk : String → Bool) (stmts : List String) :
    ∀ s, (runStmts execOk stmts s).2.ledger = s.ledger ∧
      (runStmts execOk stmts s).2.tableExists = s.tableExists := by
  induction stmts with
  | nil => intro s; simp [runStmts]
  | cons t rest ih =>
    intro s
    by_cases ht : goTrim t = ""
    · simpa [runStmts, ht] using ih s
    · by_cases hx : execOk (goTrim t) = true
      · simpa [runStmts, ht, hx] using ih _
      · simp [runStmts, ht, hx]

/-- Helper: the Up loop over an appended list runs the first part,
and on its success continues with the second part from the reached
state. -/
theorem upMigs_append_ok (execOk : String → Bool) (l1 l2 : List Migration)
    (applied : List String) :
    ∀ s, (upMigs execOk l1 applied s).1 = none →
      upMigs execOk (l1 ++ l2) applied s =
        upMigs execOk l2 applied (upMigs execOk l1 applied s).2 := by
  induction l1 with
  | nil => intro s _; simp [upMigs]
  | cons m l1 ih =>
    intro s h
    by_cases h1 : m.version ∈ applied
    · simp only [List.cons_append]
      simp [upMigs, h1] at h ⊢
      exact ih s h
    · by_cases h2 : m.upSQL = ""
      · simp only [List.cons_append]
        simp [upMigs, h1, h2] at h ⊢
        exact ih s h
      · rcases hr : runStmts execOk (splitStatements m.upSQL) s with ⟨o, s1⟩
        cases o with
        | some t => simp [upMigs, h1, h2, hr] at h
        | none =>
          simp only [List.cons_append]
          simp [upMigs, h1, h2, hr] at h ⊢
          exact ih _ h

/-- Helper: the Up loop only ever appends to the ledger. -/
theorem upMigs_ledger_mono (execOk : String → Bool) (migs : List Migration)
    (applied : List String) :
    ∀ s, ∃ ext, (upMigs execOk migs applied s).2.ledger = s.ledger ++ ext := by
  induction migs with
  | nil => intro s; exact ⟨[], by simp [upMigs]⟩
  | cons m rest ih =>
    intro s
    by_cases h1 : m.version ∈ applied
    · simpa [upMigs, h1] using ih s
    · by_cases h2 : m.upSQL = ""
      · simpa [upMigs, h1, h2] using ih s
      · rcases hr : runStmts execOk (splitStatements m.upSQL) s with ⟨o, s1⟩
        have hfr := runStmts_frame execOk (splitStatements m.upSQL) s
        rw [hr] at hfr
        simp only [] at hfr
        cases o with
        | some t =>
          refine ⟨[], ?_⟩
          simp [upMigs, h1, h2, hr, hfr.1]
        | none =>
          rcases ih (recordMigration s1 m) with ⟨ext, hext⟩
          refine ⟨⟨m.version, m.name⟩ :: ext, ?_⟩
          simp only [recordMigration] at hext
          rw [hfr.1] at hext
          simp [upMigs, h1, h2, hr, recordMigration, hfr.1, hext]

/-- Helper: the Up loop preserves the table flag. -/
theorem upMigs_tableExists (execOk : String → Bool) (migs : List Migration)
    (applied : List String) :
    ∀ s, (upMigs execOk migs applied s).2.tableExists = s.tableExists := by
  induction migs with
  | nil => intro s; simp [upMigs]
  | cons m rest ih =>
    intro s
    by_cases h1 : m.version ∈ applied
    · simpa [upMigs, h1] using ih s
    · by_cases h2 : m.upSQL = ""
      · simpa [upMigs, h1, h2] using ih s
      · rcases hr : runStmts execOk (splitStatements m.upSQL) s with ⟨o, s1⟩
        have hfr := runStmts_frame execOk (splitStatements m.upSQL) s
        rw [hr] at hfr
        simp only [] at hfr
        cases o with
        | some t => simp [upMigs, h1, h2, hr, hfr.2]
        | none =>
          have hrec := ih (recordMigration s1 m)
          simp only [recordMigration] at hrec
          rw [hfr.2] at hrec
          simp [upMigs, h1, h2, hr, recordMigration, hfr.2, hrec]

/-- Helper: after a successful Up loop, every migration with a
nonempty up-script has its version in the final ledger, provided the
applied set only contains versions of the starting ledger. -/
theorem upMigs_covers (execOk : String → Bool) (migs : List Migration)
    (applied : List String) :
    ∀ s, (∀ v, v ∈ applied → v ∈ appliedVersions s) →
      (upMigs execOk migs applied s).1 = none →
      ∀ m ∈ migs, m.upSQL ≠ "" →
        m.version ∈ appliedVersions (upMigs execOk migs applied s).2 := by
  induction migs with
  | nil => intro s _ _ m hm; simp at hm
  | cons m0 rest ih =>
    intro s hsub h m hm hup
    rcases List.mem_cons.mp hm with hm0 | hmrest
    all_goals by_cases h1 : m0.version ∈ applied
    · subst hm0
      have hmem : m.version ∈ appliedVersions s := hsub m.version h1
      rcases upMigs_ledger_mono execOk rest applied s with ⟨ext, hext⟩
      simp only [upMigs, h1, if_true, appliedVersions] at hext ⊢
      simp only [appliedVersions] at hmem
      simp [upMigs, h1, hext, hmem]
    · subst hm0
      by_cases h2 : m.upSQL = ""
      · exact absurd h2 hup
      · rcases hr : runStmts execOk (splitStatements m.upSQL) s with ⟨o, s1⟩
        cases o with
        | some t => simp [upMigs, h1, h2, hr] at h
        | none =>
          rcases upMigs_ledger_mono execOk rest applied (recordMigration s1 m) with
            ⟨ext, hext⟩
          simp [upMigs, h1, h2, hr, appliedVersions]
          refine ⟨⟨m.version, m.name⟩, ?_, rfl⟩
          simp only [recordMigration] at hext ⊢
          rw [hext]
          simp
    · -- m in rest, head already applied
      simp [upMigs, h1] at h ⊢
      exact ih s hsub h m hmrest hup
    · by_cases h2 : m0.upSQL = ""
      · simp [upMigs, h1, h2] at h ⊢
        exact ih s hsub h m hmrest hup
      · rcases hr : runStmts execOk (splitStatements m0.upSQL) s with ⟨o, s1⟩
        cases o with
        | some t => simp [upMigs, h1, h2, hr] at h
        | none =>
          have hfr := runStmts_frame execOk (splitStatements m0.upSQL) s
          rw [hr] at hfr
          simp only [] at hfr
          simp [upMigs, h1, h2, hr] at h ⊢
          refine ih (recordMigration s1 m0) ?_ h m hmrest hup
          intro v hv
          have hv2 := hsub v hv
          simp only [appliedVersions, recordMigration] at hv2 ⊢
          rw [hfr.1]
          simp [hv2]

/-- Helper: when every migration is either already applied or has an
empty up-script, the Up loop is an identity returning success. -/
theorem upMigs_skip_all (execOk : String → Bool) (migs : List Migration)
    (applied : List String) :
    ∀ s, (∀ m ∈ migs, m.version ∈ applied ∨ m.upSQL = "") →
      upMigs execOk migs applied s = (none, s) := by
  induction migs with
  | nil => intro s _; simp [upMigs]
  | cons m rest ih =>
    intro s h
    have hrest : ∀ x ∈ rest, x.version ∈ applied ∨ x.upSQL = "" :=
      fun x hx => h x (by simp [hx])
    rcases h m (by simp) with h1 | h2
    · simp [upMigs, h1, ih s hrest]
    · by_cases h1 : m.version ∈ applied
      · simp [upMigs, h1, ih s hrest]
      · simp [upMigs, h1, h2, ih s hrest]

/-- C5: a second Up run immediately after a successful one (same
discovered migrations, any statement oracle) returns success with the
store completely unchanged: since every successful statement and
ledger insert is recorded in the state, the unchanged state means the
second run executed zero migration statements and inserted zero
ledger rows, every discovered migration being skipped. -/
theorem c5_up_idempotent (execOk execOk2 : String → Bool) (migs : List Migration)
    (s : ChDbState) (h : (migratorUp execOk migs s).1 = none) :
    migratorUp execOk2 migs (migratorUp execOk migs s).2 =
      (none, (migratorUp execOk migs s).2) := by
  simp only [migratorUp] at h ⊢
  have hens1 : (ensureMigrationTable s).tableExists = true := by
    by_cases hh : s.tableExists <;> simp [ensureMigrationTable, hh]
  set s1 := ensureMigrationTable s with hs1
  set r := upMigs execOk migs (appliedVersions s1) s1 with hrdef
  have ht2 : r.2.tableExists = true := by
    rw [hrdef, upMigs_tableExists]
    exact hens1
  have hens2 : ensureMigrationTable r.2 = r.2 := by simp [ensureMigrationTable, ht2]
  rw [hens2]
  apply upMigs_skip_all
  intro m hm
  by_cases hup : m.upSQL = ""
  · exact Or.inr hup
  · exact Or.inl (upMigs_covers execOk migs (appliedVersions s1) s1
      (fun v hv => hv) h m hm hup)

/-- C5 witness: the theorem applied to a fresh store, one migration
and an oracle accepting every statement. -/
theorem c5_up_idempotent_witness :
    migratorUp (fun _ => true) [sampleMigration]
        (migratorUp (fun _ => true) [sampleMigration] freshChDb).2 =
      (none, (migratorUp (fun _ => true) [sampleMigration] freshChDb).2) :=
  c5_up_idempotent (fun _ => true) (fun _ => true) [sampleMigration] freshChDb
    (by decide)

/-- C6: when a statement of the up-script of a pending migration
fails (after a prefix of its file succeeded and all earlier
migrations ran clean), Up returns the wrapped error immediately: the
remaining statements of the file and all later migrations never run,
the ledger is exactly as it was before the failing statement (no row
for the failing migration), and the statements already executed from
that file stay applied (no rollback). -/
theorem c6_up_statement_failure (execOk : String → Bool) (pre post : List Migration)
    (m : Migration) (s : ChDbState) (a : List String) (bad : String) (b : List String)
    (h1 : (upMigs execOk pre (appliedVersions (ensureMigrationTable s))
      (ensureMigrationTable s)).1 = none)
    (h2 : m.version ∉ appliedVersions (ensureMigrationTable s))
    (h3 : m.upSQL ≠ "")
    (h4 : splitStatements m.upSQL = a ++ bad :: b)
    (h5 : ∀ t ∈ a, goTrim t ≠ "" → execOk (goTrim t) = true)
    (h6 : goTrim bad ≠ "") (h7 : execOk (goTrim bad) = false) :
    migratorUp execOk (pre ++ m :: post) s =
      (some ("failed to apply migration " ++ m.filename ++ ": Statement: " ++ goTrim bad),
        { (upMigs execOk pre (appliedVersions (ensureMigrationTable s))
            (ensureMigrationTable s)).2 with
          schemaOps := (upMigs execOk pre (appliedVersions (ensureMigrationTable s))
            (ensureMigrationTable s)).2.schemaOps ++ execStmtsOf a }) := by
  simp only [migratorUp]
  rw [upMigs_append_ok execOk pre (m :: post) _ _ h1]
  set s2 := (upMigs execOk pre (appliedVersions (ensureMigrationTable s))
    (ensureMigrationTable s)).2 with hs2
  have hrun := runStmts_fail execOk a bad b s2 h5 h6 h7
  rw [← h4] at hrun
  simp [upMigs, h2, h3, hrun]

/-- C6 witness: one migration whose second statement fails; the first
statement stays applied, the ledger stays empty, the error is
returned. -/
theorem c6_up_statement_failure_witness :
    migratorUp sampleExecOk [sampleBadMigration] freshChDb =
      (some "failed to apply migration 000002_bad: Statement: BAD STATEMENT",
        ⟨true, [], ["CREATE TABLE t2 (x Int)"]⟩) := by
  have h := c6_up_statement_failure sampleExecOk [] [] sampleBadMigration freshChDb
    ["CREATE TABLE t2 (x Int)"] "BAD STATEMENT" [] (by decide) (by decide)
    (by decide) (by decide) (by decide) (by decide) (by decide)
  exact h.trans (by decide)

/-- C7: Down with no discovered migration present in the ledger is a
successful no-op leaving the store untouched; Down whose located last
applied migration has an empty down-script fails without executing a
statement or touching the ledger; otherwise, with every statement of
the down-script succeeding and the ledger holding exactly one row of
that version, Down succeeds, executes exactly the statements of that
down-script, and removes exactly that one ledger row. -/
theorem c7_down_branches (execOk : String → Bool) (migs : List Migration)
    (s : ChDbState) (hs : s.tableExists = true) :
    ((∀ m ∈ migs, m.version ∉ appliedVersions s) →
      migratorDown execOk migs s = (none, s)) ∧
    (∀ m, findLastApplied migs (appliedVersions s) = some m → m.downSQL = "" →
      migratorDown execOk migs s =
        (some ("migration " ++ m.filename ++ " has no down migration"), s)) ∧
    (∀ m l1 row l2, findLastApplied migs (appliedVersions s) = some m →
      m.downSQL ≠ "" →
      (∀ t ∈ splitStatements m.downSQL, goTrim t ≠ "" → execOk (goTrim t) = true) →
      s.ledger = l1 ++ row :: l2 → row.version = m.version →
      (∀ r ∈ l1, r.version ≠ m.version) → (∀ r ∈ l2, r.version ≠ m.version) →
      migratorDown execOk migs s =
        (none, ⟨true, l1 ++ l2,
          s.schemaOps ++ execStmtsOf (splitStatements m.downSQL)⟩)) := by
  have hens : ensureMigrationTable s = s := by simp [ensureMigrationTable, hs]
  refine ⟨?_, ?_, ?_⟩
  · intro h
    have hfind : findLastApplied migs (appliedVersions s) = none := by
      apply List.find?_eq_none.mpr
      intro m hm
      have hnm := h m (List.mem_reverse.mp hm)
      simp [hnm]
    simp [migratorDown, hens, hfind]
  · intro m hf hd
    simp [migratorDown, hens, hf, hd]
  · intro m l1 row l2 hf hd hok hled hrow hl1 hl2
    have hrun := runStmts_ok execOk (splitStatements m.downSQL) s hok
    have hf1 : l1.filter (fun r => !decide (r.version = m.version)) = l1 :=
      List.filter_eq_self.mpr (fun r hr => by simpa using hl1 r hr)
    have hf2 : l2.filter (fun r => !decide (r.version = m.version)) = l2 :=
      List.filter_eq_self.mpr (fun r hr => by simpa using hl2 r hr)
    have hfrow : (row :: l2).filter (fun r => !decide (r.version = m.version)) = l2 := by
      simp [List.filter_cons, hrow, hf2]
    simp [migratorDown, hens, hf, hd, hrun, removeMigrationRecord, hled,
      List.filter_append, hf1, hfrow, hs]

/-- C7 witness: the success branch of the theorem at one applied
migration over a single-row ledger. -/
theorem c7_down_branches_witness :
    migratorDown (fun _ => true) [sampleMigration]
        ⟨true, [⟨"000001", "create_events_table"⟩], []⟩ =
      (none, ⟨true, [], ["DROP TABLE events"]⟩) := by
  have h := (c7_down_branches (fun _ => true) [sampleMigration]
      ⟨true, [⟨"000001", "create_events_table"⟩], []⟩ rfl).2.2 sampleMigration
      [] ⟨"000001", "create_events_table"⟩ [] (by decide) (by decide) (by decide)
      rfl (by decide) (by simp) (by simp)
  exact h.trans (by decide)

/-- C8 counterexample: on a store where the schema_migrations table
does not yet exist, Status creates it, so the database state is not
left unchanged — Status is not a pure read as claimed. -/
theorem c8_status_counterexample :
    (migratorStatus [] freshChDb).2 ≠ freshChDb := by decide

/-- C8 amended: Status mutates nothing except ensuring the
schema_migrations ledger table exists (creating it empty when
absent); whenever the table already exists it is a pure read that
leaves the store unchanged and reports, for every discovered
migration, its version, name and whether its version is present in
the ledger. -/
theorem c8_status_pure_when_table_exists (migs : List Migration) (s : ChDbState)
    (hs : s.tableExists = true) :
    migratorStatus migs s =
      (migs.map (fun m => ⟨m.version, m.name, (appliedVersions s).contains m.version⟩),
        s) := by
  simp [migratorStatus, ensureMigrationTable, hs]

/-- C8 witness: the amended theorem at a one-migration, one-ledger-row
store whose table exists. -/
theorem c8_status_pure_when_table_exists_witness :
    migratorStatus [sampleMigration] ⟨true, [⟨"000001", "create_events_table"⟩], []⟩ =
      ([⟨"000001", "create_events_table", true⟩],
        ⟨true, [⟨"000001", "create_events_table"⟩], []⟩) := by
  have h := c8_status_pure_when_table_exists [sampleMigration]
    ⟨true, [⟨"000001", "create_events_table"⟩], []⟩ rfl
  exact h.trans (by decide)
